import Mathlib

/-!
Shallow embedding of the `RawStruct` derive macro's generated validation code
(src/raw_struct_macro/src/lib.rs) together with the demonstration schema
(src/src/main.rs).  The macro generates, for a struct, a parallel raw struct
whose fields are all `Option<String>` plus a `validate` method that, per field,
runs a required-presence check and a per-kind value check dispatched on the
printed name of the field's (inner) type.  Numeric branches call Rust's
`str::parse` and classify failures by whether the error's display text
contains "invalid digit"; we therefore embed Rust's integer `from_str`
(including its error kinds and display strings) and the success/failure
behaviour of float and bool parsing.
-/

namespace RawStruct

/-- Widths of the Rust integer types the macro recognises. -/
inductive IntWidth
  | w8
  | w16
  | w32
  | w64
  | w128
deriving DecidableEq

/-- Classification of a field's (inner) type, mirroring the macro's
`match type_str.as_str()` dispatch: unsigned and signed integer families,
floats, `bool`, `String`, and a fallthrough for every other type name. -/
inductive ScalarKind
  | unsigned (w : IntWidth)
  | signed (w : IntWidth)
  | float32
  | float64
  | bool
  | text
  | other
deriving DecidableEq

/-- `u8::MAX` .. `u128::MAX`. -/
def uMax : IntWidth → Nat
  | IntWidth.w8 => 255
  | IntWidth.w16 => 65535
  | IntWidth.w32 => 4294967295
  | IntWidth.w64 => 18446744073709551615
  | IntWidth.w128 => 340282366920938463463374607431768211455

/-- `i8::MAX` .. `i128::MAX`. -/
def iMax : IntWidth → Int
  | IntWidth.w8 => 127
  | IntWidth.w16 => 32767
  | IntWidth.w32 => 2147483647
  | IntWidth.w64 => 9223372036854775807
  | IntWidth.w128 => 170141183460469231731687303715884105727

/-- `i8::MIN` .. `i128::MIN`. -/
def iMin : IntWidth → Int
  | IntWidth.w8 => -128
  | IntWidth.w16 => -32768
  | IntWidth.w32 => -2147483648
  | IntWidth.w64 => -9223372036854775808
  | IntWidth.w128 => -170141183460469231731687303715884105728

/-- The macro's type dispatch `match type_str.as_str()` in `raw_struct_derive`:
exact name match on the printed base type, everything else falls to the
generic branch. -/
def kindOfTypeName : String → ScalarKind
  | "u8" => ScalarKind.unsigned IntWidth.w8
  | "u16" => ScalarKind.unsigned IntWidth.w16
  | "u32" => ScalarKind.unsigned IntWidth.w32
  | "u64" => ScalarKind.unsigned IntWidth.w64
  | "u128" => ScalarKind.unsigned IntWidth.w128
  | "i8" => ScalarKind.signed IntWidth.w8
  | "i16" => ScalarKind.signed IntWidth.w16
  | "i32" => ScalarKind.signed IntWidth.w32
  | "i64" => ScalarKind.signed IntWidth.w64
  | "i128" => ScalarKind.signed IntWidth.w128
  | "f32" => ScalarKind.float32
  | "f64" => ScalarKind.float64
  | "bool" => ScalarKind.bool
  | "String" => ScalarKind.text
  | _ => ScalarKind.other

/-- Error kinds of Rust's `core::num::ParseIntError`. -/
inductive IntErrorKind
  | empty
  | invalidDigit
  | posOverflow
  | negOverflow
deriving DecidableEq

/-- The `Display` text of each `ParseIntError` kind; the generated code
classifies a parse failure by testing `e.to_string().contains("invalid digit")`. -/
def intErrorMessage : IntErrorKind → String
  | IntErrorKind.empty => "cannot parse integer from empty string"
  | IntErrorKind.invalidDigit => "invalid digit found in string"
  | IntErrorKind.posOverflow => "number too large to fit in target type"
  | IntErrorKind.negOverflow => "number too small to fit in target type"

/-- Does `pat` occur at the very front of `s`? Helper for substring search. -/
def startsWithList (pat s : List Char) : Bool :=
  match pat, s with
  | [], _ => true
  | _ :: _, [] => false
  | p :: ps, c :: cs => p == c && startsWithList ps cs

/-- Does `pat` occur anywhere inside `s`? Helper for substring search. -/
def hasSubList (pat s : List Char) : Bool :=
  match s with
  | [] => pat.isEmpty
  | _ :: cs => startsWithList pat s || hasSubList pat cs

/-- Rust's `str::contains` restricted to a literal pattern, as used in
`e.to_string().contains("invalid digit")`. -/
def rustStrContains (s pat : String) : Bool :=
  hasSubList pat.data s.data

/-- Digit loop of Rust's unsigned `from_str_radix` (radix 10): consume digits
left to right, failing with `InvalidDigit` at the first non-digit and with
`PosOverflow` as soon as the accumulator exceeds the type's maximum. -/
def parseUDigits (w : IntWidth) : List Char → Nat → Except IntErrorKind Nat
  | [], acc => Except.ok acc
  | c :: cs, acc =>
    if c.isDigit then
      let acc2 := acc * 10 + (c.toNat - 48)
      if acc2 > uMax w then Except.error IntErrorKind.posOverflow
      else parseUDigits w cs acc2
    else Except.error IntErrorKind.invalidDigit

/-- Rust's `uN::from_str`: empty input is `Empty`; a lone sign is
`InvalidDigit`; a leading `+` is stripped; a leading `-` is NOT treated as a
sign for unsigned types and so fails as an invalid digit. -/
def rustParseUnsigned (w : IntWidth) (s : String) : Except IntErrorKind Nat :=
  match s.data with
  | [] => Except.error IntErrorKind.empty
  | c :: cs =>
    if (c = '+' ∨ c = '-') ∧ cs = [] then Except.error IntErrorKind.invalidDigit
    else if c = '+' then parseUDigits w cs 0
    else parseUDigits w (c :: cs) 0

/-- Digit loop of Rust's signed `from_str_radix` (radix 10). For a positive
sign the accumulator grows and overflow past `MAX` is `PosOverflow`; for a
negative sign it shrinks and passing `MIN` is `NegOverflow`. -/
def parseSDigits (w : IntWidth) (positive : Bool) : List Char → Int → Except IntErrorKind Int
  | [], acc => Except.ok acc
  | c :: cs, acc =>
    if c.isDigit then
      let d : Int := (c.toNat - 48 : Nat)
      if positive then
        let acc2 := acc * 10 + d
        if acc2 > iMax w then Except.error IntErrorKind.posOverflow
        else parseSDigits w positive cs acc2
      else
        let acc2 := acc * 10 - d
        if acc2 < iMin w then Except.error IntErrorKind.negOverflow
        else parseSDigits w positive cs acc2
    else Except.error IntErrorKind.invalidDigit

/-- Rust's `iN::from_str`: empty input is `Empty`, a lone sign is
`InvalidDigit`, otherwise an optional sign followed by the digit loop. -/
def rustParseSigned (w : IntWidth) (s : String) : Except IntErrorKind Int :=
  match s.data with
  | [] => Except.error IntErrorKind.empty
  | c :: cs =>
    if (c = '+' ∨ c = '-') ∧ cs = [] then Except.error IntErrorKind.invalidDigit
    else if c = '+' then parseSDigits w true cs 0
    else if c = '-' then parseSDigits w false cs 0
    else parseSDigits w true (c :: cs) 0

/-- Leading characters of `s` that are ASCII digits: count and remainder. -/
def takeDigits : List Char → Nat × List Char
  | [] => (0, [])
  | c :: cs =>
    if c.isDigit then
      let r := takeDigits cs
      (r.1 + 1, r.2)
    else (0, c :: cs)

/-- Does the sign-stripped input match Rust's float grammar?  Accepted:
`inf`, `infinity`, `nan` case-insensitively, or a decimal number
`digits [. digits] [(e|E) [sign] digits]` with at least one mantissa digit
and, if an exponent marker is present, at least one exponent digit.  Rust
float parsing never fails for range reasons (out-of-range input rounds to
infinity), so success is exactly grammar membership. -/
def floatBodyOk (cs : List Char) : Bool :=
  let lower := cs.map Char.toLower
  if lower = "inf".data ∨ lower = "infinity".data ∨ lower = "nan".data then true
  else
    let m1 := takeDigits cs
    let m2 :=
      match m1.2 with
      | '.' :: rest => takeDigits rest
      | _ => (0, m1.2)
    if m1.1 + m2.1 = 0 then false
    else
      match m2.2 with
      | [] => true
      | e :: rest =>
        if e = 'e' ∨ e = 'E' then
          let rest2 :=
            match rest with
            | c :: t => if c = '+' ∨ c = '-' then t else c :: t
            | [] => []
          let m3 := takeDigits rest2
          decide (m3.1 > 0) && m3.2.isEmpty
        else false

/-- Rust's `f32::from_str` / `f64::from_str` success predicate: optional sign,
then `floatBodyOk`.  (The two widths accept the same inputs.) -/
def rustParseFloatOk (s : String) : Bool :=
  match s.data with
  | [] => false
  | c :: cs => if c = '+' ∨ c = '-' then floatBodyOk cs else floatBodyOk (c :: cs)

/-- Rust's `v.starts_with('-')` on the raw text. -/
def startsWithDash (s : String) : Bool :=
  match s.data with
  | '-' :: _ => true
  | _ => false

/-- Rust's `str::to_lowercase` restricted to the ASCII mapping, which is all
the bool branch's comparison against `"true"/"false"/"1"/"0"` can observe. -/
def rustToLowercase (s : String) : String :=
  String.mk (s.data.map Char.toLower)

/-- The `#[validate(min_length = .., max_length = ..)]` configuration parsed
by `parse_string_validation` (src lib.rs lines 6-39). -/
structure StringValidation where
  min_length : Option Nat
  max_length : Option Nat
deriving DecidableEq

/-- One field of the derived struct, as the macro sees it: its identifier, the
printed name of its base (inner) type, whether the declared type was wrapped
in `Option`, and its parsed length-validation attributes. -/
structure Field where
  name : String
  typeName : String
  optional : Bool
  validation : StringValidation
deriving DecidableEq

/-- The messages the generated code builds with `format!`; each constructor
stands for one format string of the source and carries exactly the values the
source interpolates into it. -/
inductive ErrMsg
  | requiredMissing (field : String)
  | negativeForUnsigned (field value typeName : String)
  | notANumber (field value : String)
  | outOfRangeUnsigned (field value typeName : String) (max : Nat)
  | outOfRangeSigned (field value typeName : String) (min max : Int)
  | invalidFloat (field value : String)
  | invalidBoolean (field value : String)
  | lengthRange (field : String) (min max len : Nat)
  | lengthBelowMin (field : String) (min len : Nat)
  | lengthAboveMax (field : String) (max len : Nat)
  | invalidForType (field value typeName : String)
deriving DecidableEq

/-- One entry added to `validator::ValidationErrors` via `errors.add`. -/
structure FieldError where
  field : String
  message : ErrMsg
deriving DecidableEq

/-- The `required_check` fragment: generated only for non-`Option` fields, it
adds a required-field error when the raw value is `None`. -/
def requiredCheck (fname : String) (optional : Bool) (rawv : Option String) :
    List FieldError :=
  if optional = false ∧ rawv = none then
    [⟨fname, ErrMsg.requiredMissing fname⟩]
  else []

/-- The `value_check` fragment: every branch is guarded by
`if let Some(value)`, then dispatches on the base type's kind.  `env` stands
for `value.parse::<T>()` of an unrecognised type `T` (the generic branch),
keyed by the printed type name. -/
def valueCheck (env : String → String → Bool) (fname tn : String)
    (kind : ScalarKind) (sv : StringValidation) (rawv : Option String) :
    List FieldError :=
  match rawv with
  | none => []
  | some value =>
    match kind with
    | ScalarKind.unsigned w =>
      if startsWithDash value then
        [⟨fname, ErrMsg.negativeForUnsigned fname value tn⟩]
      else
        match rustParseUnsigned w value with
        | Except.ok _ => []
        | Except.error e =>
          if rustStrContains (intErrorMessage e) "invalid digit" then
            [⟨fname, ErrMsg.notANumber fname value⟩]
          else
            [⟨fname, ErrMsg.outOfRangeUnsigned fname value tn (uMax w)⟩]
    | ScalarKind.signed w =>
      match rustParseSigned w value with
      | Except.ok _ => []
      | Except.error e =>
        if rustStrContains (intErrorMessage e) "invalid digit" then
          [⟨fname, ErrMsg.notANumber fname value⟩]
        else
          [⟨fname, ErrMsg.outOfRangeSigned fname value tn (iMin w) (iMax w)⟩]
    | ScalarKind.float32 =>
      if rustParseFloatOk value then [] else [⟨fname, ErrMsg.invalidFloat fname value⟩]
    | ScalarKind.float64 =>
      if rustParseFloatOk value then [] else [⟨fname, ErrMsg.invalidFloat fname value⟩]
    | ScalarKind.bool =>
      if rustToLowercase value = "true" ∨ rustToLowercase value = "false" ∨
          rustToLowercase value = "1" ∨ rustToLowercase value = "0" then []
      else [⟨fname, ErrMsg.invalidBoolean fname value⟩]
    | ScalarKind.text =>
      match sv.min_length, sv.max_length with
      | some mn, some mx =>
        let len := value.length
        if len < mn ∨ len > mx then [⟨fname, ErrMsg.lengthRange fname mn mx len⟩]
        else []
      | some mn, none =>
        let len := value.length
        if len < mn then [⟨fname, ErrMsg.lengthBelowMin fname mn len⟩]
        else []
      | none, some mx =>
        let len := value.length
        if len > mx then [⟨fname, ErrMsg.lengthAboveMax fname mx len⟩]
        else []
      | none, none => []
    | ScalarKind.other =>
      if env tn value then [] else [⟨fname, ErrMsg.invalidForType fname value tn⟩]

/-- The full per-field fragment the macro emits into `validate`:
`required_check` followed by `value_check`. -/
def fieldCheck (env : String → String → Bool) (f : Field) (rawv : Option String) :
    List FieldError :=
  requiredCheck f.name f.optional rawv ++
    valueCheck env f.name f.typeName (kindOfTypeName f.typeName) f.validation rawv

/-- All errors accumulated by one `validate` call, field by field in
declaration order. -/
def runChecks (env : String → String → Bool) (fields : List Field)
    (record : String → Option String) : List FieldError :=
  (fields.map (fun f => fieldCheck env f (record f.name))).flatten

/-- The generated `validate`: run every field's checks, return `Ok(())` iff
the accumulated error collection is empty, otherwise the whole collection. -/
def validate (env : String → String → Bool) (fields : List Field)
    (record : String → Option String) : Except (List FieldError) Unit :=
  let errors := runChecks env fields record
  if errors = [] then Except.ok () else Except.error errors

/-- Success of "parse this raw text with the field's declared scalar type":
the same Rust parses the checks call, plus `bool::from_str` (which accepts
exactly `"true"` and `"false"`, case-sensitively) and `String::from_str`
(infallible) for the remaining kinds. -/
def parseScalarOk (env : String → String → Bool) (tn : String)
    (kind : ScalarKind) (value : String) : Bool :=
  match kind with
  | ScalarKind.unsigned w =>
    match rustParseUnsigned w value with
    | Except.ok _ => true
    | Except.error _ => false
  | ScalarKind.signed w =>
    match rustParseSigned w value with
    | Except.ok _ => true
    | Except.error _ => false
  | ScalarKind.float32 => rustParseFloatOk value
  | ScalarKind.float64 => rustParseFloatOk value
  | ScalarKind.bool => value == "true" || value == "false"
  | ScalarKind.text => true
  | ScalarKind.other => env tn value

/-! Helper lemmas shared by the claim theorems. -/

/-- The required check never fires on a present value. -/
theorem requiredCheck_some (fname : String) (opt : Bool) (s : String) :
    requiredCheck fname opt (some s) = [] := by
  simp [requiredCheck]

/-- On a present value the per-field fragment is exactly the value check. -/
theorem fieldCheck_some (env : String → String → Bool) (f : Field) (s : String) :
    fieldCheck env f (some s) =
      valueCheck env f.name f.typeName (kindOfTypeName f.typeName) f.validation (some s) := by
  simp [fieldCheck, requiredCheck_some]

/-- Unfolding of `runChecks` on a cons cell. -/
theorem runChecks_cons (env : String → String → Bool) (f : Field) (fs : List Field)
    (record : String → Option String) :
    runChecks env (f :: fs) record =
      fieldCheck env f (record f.name) ++ runChecks env fs record := by
  simp [runChecks]

/-- The accumulated error list is empty iff every field's check is empty. -/
theorem runChecks_eq_nil_iff (env : String → String → Bool) (fields : List Field)
    (record : String → Option String) :
    runChecks env fields record = [] ↔
      ∀ f ∈ fields, fieldCheck env f (record f.name) = [] := by
  simp [runChecks, List.flatten_eq_nil_iff]

/-- Each field's errors form a sublist of the accumulated error list. -/
theorem fieldCheck_sublist_runChecks (env : String → String → Bool) (fields : List Field)
    (record : String → Option String) (f : Field) (hf : f ∈ fields) :
    List.Sublist (fieldCheck env f (record f.name)) (runChecks env fields record) :=
  List.sublist_flatten_of_mem (List.mem_map_of_mem _ hf)

/-- The value check never fires on an absent value. -/
theorem valueCheck_none (env : String → String → Bool) (fname tn : String)
    (kind : ScalarKind) (sv : StringValidation) :
    valueCheck env fname tn kind sv none = [] := rfl

/-- Every branch of the value check emits at most one error. -/
theorem valueCheck_length_le_one (env : String → String → Bool) (fname tn : String)
    (kind : ScalarKind) (sv : StringValidation) (rawv : Option String) :
    (valueCheck env fname tn kind sv rawv).length ≤ 1 := by
  rcases rawv with _ | value
  · simp [valueCheck]
  · rcases kind with w | w | _ | _ | _ | _ | _ <;> simp only [valueCheck] <;>
      repeat' first
        | split
        | simp

/-- C1: `validate` returns `Ok(())` iff every field's synthesized check yields
zero errors, and on failure it returns the full report, which contains every
field's errors (as a sublist), not only the first failing field's. -/
theorem validate_ok_iff_and_full_report (env : String → String → Bool)
    (fields : List Field) (record : String → Option String) :
    (validate env fields record = Except.ok () ↔
      ∀ f ∈ fields, fieldCheck env f (record f.name) = []) ∧
    (∀ r, validate env fields record = Except.error r →
      r = runChecks env fields record ∧
        ∀ f ∈ fields, List.Sublist (fieldCheck env f (record f.name)) r) := by
  constructor
  · by_cases h : runChecks env fields record = []
    · simp only [validate, h, if_pos rfl]
      constructor
      · intro _
        exact fun f hf => (runChecks_eq_nil_iff env fields record).mp h f hf
      · intro _
        rfl
    · simp only [validate, if_neg h]
      constructor
      · intro hc
        exact absurd hc (by simp)
      · intro hall
        exact absurd ((runChecks_eq_nil_iff env fields record).mpr hall) h
  · intro r hr
    have hre : r = runChecks env fields record := by
      by_cases h : runChecks env fields record = []
      · simp only [validate, h, if_pos rfl] at hr
        exact absurd hr (by simp)
      · simp only [validate, if_neg h] at hr
        exact (Except.error.injEq _ _ ▸ hr : _) ▸ rfl
    refine ⟨hre, ?_⟩
    intro f hf
    rw [hre]
    exact fieldCheck_sublist_runChecks env fields record f hf

/-- Witness for C1 on the demonstration schema of src/src/main.rs and its
first CSV row: validation fails, and field `c`'s errors appear inside the
full report, which also holds field `a`'s error. -/
theorem validate_ok_iff_and_full_report_witness :
    List.Sublist
      (fieldCheck (fun _ _ => true) ⟨"c", "String", false, ⟨some 5, none⟩⟩ (some "foo"))
      [⟨"a", ErrMsg.outOfRangeUnsigned "a" "43434532432432432" "u16" 65535⟩,
       ⟨"c", ErrMsg.lengthBelowMin "c" 5 3⟩] := by
  have h :=
    (validate_ok_iff_and_full_report (fun _ _ => true)
      [⟨"a", "u16", true, ⟨none, none⟩⟩, ⟨"b", "i32", true, ⟨none, none⟩⟩,
       ⟨"c", "String", false, ⟨some 5, none⟩⟩, ⟨"d", "String", true, ⟨some 5, none⟩⟩]
      (fun n => if n = "a" then some "43434532432432432" else if n = "b" then some "20"
                else if n = "c" then some "foo" else none)).2
      [⟨"a", ErrMsg.outOfRangeUnsigned "a" "43434532432432432" "u16" 65535⟩,
       ⟨"c", ErrMsg.lengthBelowMin "c" 5 3⟩]
      rfl
  exact h.2 ⟨"c", "String", false, ⟨some 5, none⟩⟩ (by simp)

/-- C6: a required (non-`Option`) field with an absent raw value yields
exactly the one required-field error, whatever its declared type name (thus
whatever its scalar kind) and whatever its length constraints; the per-kind
check cannot fire because it is guarded on a present value. -/
theorem required_absent_exactly_one_error (env : String → String → Bool)
    (fname tn : String) (sv : StringValidation) :
    fieldCheck env ⟨fname, tn, false, sv⟩ none =
      [⟨fname, ErrMsg.requiredMissing fname⟩] := by
  simp [fieldCheck, requiredCheck, valueCheck]

/-- C7: an optional field with an absent raw value yields zero errors, for
every declared type name (thus every scalar kind) and every length
constraint set. -/
theorem optional_absent_no_error (env : String → String → Bool)
    (fname tn : String) (sv : StringValidation) :
    fieldCheck env ⟨fname, tn, true, sv⟩ none = [] := by
  simp [fieldCheck, requiredCheck, valueCheck]

/-- C9: one validate call adds at most one error per field: the required
check fires only on an absent value, the value check only on a present one,
and every branch of the value check emits at most a single error. -/
theorem fieldCheck_at_most_one_error (env : String → String → Bool)
    (f : Field) (rawv : Option String) :
    (fieldCheck env f rawv).length ≤ 1 := by
  rcases rawv with _ | s
  · have hv := valueCheck_none env f.name f.typeName (kindOfTypeName f.typeName) f.validation
    simp only [fieldCheck, hv, List.append_nil]
    simp only [requiredCheck]
    split <;> simp
  · rw [fieldCheck_some]
    exact valueCheck_length_le_one env f.name f.typeName (kindOfTypeName f.typeName)
      f.validation (some s)

/-- `fieldCheck_some` specialised to an explicitly given field. -/
theorem fieldCheck_mk_some (env : String → String → Bool) (fname tn : String)
    (opt : Bool) (sv : StringValidation) (s : String) :
    fieldCheck env ⟨fname, tn, opt, sv⟩ (some s) =
      valueCheck env fname tn (kindOfTypeName tn) sv (some s) :=
  fieldCheck_some env ⟨fname, tn, opt, sv⟩ s

/-- C3: an unsigned-integer field whose present value starts with a minus
sign gets exactly the negative-value-not-allowed error, before any numeric
parse and for every remainder `rest` — in particular also when `rest` is a
valid magnitude — and never a parse-failure error. -/
theorem unsigned_leading_dash_negative_error (env : String → String → Bool)
    (fname tn : String) (opt : Bool) (sv : StringValidation) (w : IntWidth)
    (rest : List Char) (hk : kindOfTypeName tn = ScalarKind.unsigned w) :
    fieldCheck env ⟨fname, tn, opt, sv⟩ (some (String.mk ('-' :: rest))) =
      [⟨fname, ErrMsg.negativeForUnsigned fname (String.mk ('-' :: rest)) tn⟩] := by
  rw [fieldCheck_mk_some, hk]
  rfl

/-- Witness for C3: a `u8` field given `"-5"` gets only the negative-value
error, although the remainder `"5"` parses as a valid `u8` magnitude. -/
theorem unsigned_leading_dash_negative_error_witness :
    fieldCheck (fun _ _ => true) ⟨"n", "u8", true, ⟨none, none⟩⟩ (some "-5") =
      [⟨"n", ErrMsg.negativeForUnsigned "n" "-5" "u8"⟩] ∧
    rustParseUnsigned IntWidth.w8 "5" = Except.ok 5 :=
  ⟨unsigned_leading_dash_negative_error (fun _ _ => true) "n" "u8" true ⟨none, none⟩
    IntWidth.w8 ['5'] rfl, rfl⟩

/-- C5: a boolean field's present value passes iff its lowercasing is one of
the four literals `true`, `false`, `1`, `0`; everything else — including
`"yes"`, `"2"` and the empty string — gets the invalid-boolean error, while
case variants such as `"TRUE"` and `"fAlSe"` pass. -/
theorem bool_accepts_exactly_four_literals (env : String → String → Bool)
    (fname tn : String) (opt : Bool) (sv : StringValidation) (value : String)
    (hk : kindOfTypeName tn = ScalarKind.bool) :
    (fieldCheck env ⟨fname, tn, opt, sv⟩ (some value) = [] ↔
      rustToLowercase value ∈ (["true", "false", "1", "0"] : List String)) ∧
    fieldCheck env ⟨fname, tn, opt, sv⟩ (some "yes") =
      [⟨fname, ErrMsg.invalidBoolean fname "yes"⟩] ∧
    fieldCheck env ⟨fname, tn, opt, sv⟩ (some "2") =
      [⟨fname, ErrMsg.invalidBoolean fname "2"⟩] ∧
    fieldCheck env ⟨fname, tn, opt, sv⟩ (some "") =
      [⟨fname, ErrMsg.invalidBoolean fname ""⟩] ∧
    fieldCheck env ⟨fname, tn, opt, sv⟩ (some "TRUE") = [] ∧
    fieldCheck env ⟨fname, tn, opt, sv⟩ (some "fAlSe") = [] := by
  constructor
  · rw [fieldCheck_mk_some, hk]
    by_cases h : rustToLowercase value = "true" ∨ rustToLowercase value = "false" ∨
        rustToLowercase value = "1" ∨ rustToLowercase value = "0" <;>
      simp [valueCheck, h]
  · refine ⟨?_, ?_, ?_, ?_, ?_⟩ <;> rw [fieldCheck_mk_some, hk] <;> rfl

/-- Witness for C5 at the concrete type name `bool`: `"yes"` is rejected and
`"TRUE"` accepted. -/
theorem bool_accepts_exactly_four_literals_witness :
    fieldCheck (fun _ _ => true) ⟨"x", "bool", true, ⟨none, none⟩⟩ (some "yes") =
      [⟨"x", ErrMsg.invalidBoolean "x" "yes"⟩] ∧
    fieldCheck (fun _ _ => true) ⟨"x", "bool", true, ⟨none, none⟩⟩ (some "TRUE") = [] := by
  have h := bool_accepts_exactly_four_literals (fun _ _ => true) "x" "bool" true
    ⟨none, none⟩ "irrelevant" rfl
  exact ⟨h.2.1, h.2.2.2.2.1⟩

/-- C8: a text field's length check counts Unicode scalar values, not bytes;
with both bounds set it emits the single combined range error exactly when
the character count falls outside `[min, max]` inclusive; with only
`min_length = 5`, the 3-character `"foo"` fails and the 5-character
`"fooba"` passes, and the 3-character, 9-byte `"あああ"` also fails. -/
theorem text_length_check_semantics (env : String → String → Bool)
    (fname tn : String) (opt : Bool) (mn mx : Nat) (value : String)
    (hk : kindOfTypeName tn = ScalarKind.text) :
    (fieldCheck env ⟨fname, tn, opt, ⟨some mn, some mx⟩⟩ (some value) =
      if mn ≤ value.length ∧ value.length ≤ mx then []
      else [⟨fname, ErrMsg.lengthRange fname mn mx value.length⟩]) ∧
    fieldCheck env ⟨fname, tn, opt, ⟨some 5, none⟩⟩ (some "foo") =
      [⟨fname, ErrMsg.lengthBelowMin fname 5 3⟩] ∧
    fieldCheck env ⟨fname, tn, opt, ⟨some 5, none⟩⟩ (some "fooba") = [] ∧
    fieldCheck env ⟨fname, tn, opt, ⟨some 5, none⟩⟩ (some "あああ") =
      [⟨fname, ErrMsg.lengthBelowMin fname 5 3⟩] ∧
    "あああ".length = 3 ∧ "あああ".utf8ByteSize = 9 := by
  constructor
  · rw [fieldCheck_mk_some, hk]
    simp only [valueCheck]
    by_cases h : value.length < mn ∨ value.length > mx
    · rw [if_pos h, if_neg (by omega)]
    · rw [if_neg h, if_pos (by omega)]
  · refine ⟨?_, ?_, ?_, rfl, rfl⟩ <;> rw [fieldCheck_mk_some, hk] <;> rfl

/-- Witness for C8 at the concrete type name `String`: both-bounds range
check on a 3-character value with bounds `[2, 4]` and `[4, 6]`. -/
theorem text_length_check_semantics_witness :
    fieldCheck (fun _ _ => true) ⟨"c", "String", false, ⟨some 2, some 4⟩⟩ (some "foo") = [] ∧
    fieldCheck (fun _ _ => true) ⟨"c", "String", false, ⟨some 4, some 6⟩⟩ (some "foo") =
      [⟨"c", ErrMsg.lengthRange "c" 4 6 3⟩] := by
  constructor
  · have h := (text_length_check_semantics (fun _ _ => true) "c" "String" false 2 4
      "foo" rfl).1
    simpa using h
  · have h := (text_length_check_semantics (fun _ _ => true) "c" "String" false 4 6
      "foo" rfl).1
    simpa using h

/-- C10: a signed or unsigned field given the present empty string gets the
out-of-range message (with the width's bounds), not the not-a-number message,
because the classification tests whether the Rust parse error's display text
contains "invalid digit" and the empty-input error text does not. -/
theorem empty_string_numeric_gets_range_error (env : String → String → Bool)
    (fname tn : String) (opt : Bool) (sv : StringValidation) (w : IntWidth) :
    (kindOfTypeName tn = ScalarKind.unsigned w →
      fieldCheck env ⟨fname, tn, opt, sv⟩ (some "") =
        [⟨fname, ErrMsg.outOfRangeUnsigned fname "" tn (uMax w)⟩]) ∧
    (kindOfTypeName tn = ScalarKind.signed w →
      fieldCheck env ⟨fname, tn, opt, sv⟩ (some "") =
        [⟨fname, ErrMsg.outOfRangeSigned fname "" tn (iMin w) (iMax w)⟩]) ∧
    rustParseUnsigned w "" = Except.error IntErrorKind.empty ∧
    rustParseSigned w "" = Except.error IntErrorKind.empty ∧
    rustStrContains (intErrorMessage IntErrorKind.empty) "invalid digit" = false := by
  refine ⟨fun hk => ?_, fun hk => ?_, rfl, rfl, rfl⟩ <;> rw [fieldCheck_mk_some, hk] <;> rfl

/-- Witness for C10: a `u16` field and an `i32` field given `""`. -/
theorem empty_string_numeric_gets_range_error_witness :
    fieldCheck (fun _ _ => true) ⟨"a", "u16", true, ⟨none, none⟩⟩ (some "") =
      [⟨"a", ErrMsg.outOfRangeUnsigned "a" "" "u16" 65535⟩] ∧
    fieldCheck (fun _ _ => true) ⟨"b", "i32", true, ⟨none, none⟩⟩ (some "") =
      [⟨"b", ErrMsg.outOfRangeSigned "b" "" "i32" (-2147483648) 2147483647⟩] :=
  ⟨(empty_string_numeric_gets_range_error (fun _ _ => true) "a" "u16" true ⟨none, none⟩
      IntWidth.w16).1 rfl,
   (empty_string_numeric_gets_range_error (fun _ _ => true) "b" "i32" true ⟨none, none⟩
      IntWidth.w32).2.1 rfl⟩

/-- The generated `contains("invalid digit")` test singles out exactly the
invalid-digit parse error among the four `ParseIntError` kinds. -/
theorem contains_invalid_digit_iff (e : IntErrorKind) :
    rustStrContains (intErrorMessage e) "invalid digit" =
      decide (e = IntErrorKind.invalidDigit) := by
  cases e <;> rfl

/-- C4: when a present value of a signed or unsigned field fails to parse,
the emitted error distinguishes malformed digits (not-a-number message) from
everything the parser rejects for other reasons (out-of-range message
carrying the exact bounds of the declared width); in particular a `u8` field
given `"300"` reports the range 0 to 255. -/
theorem numeric_failure_classification (env : String → String → Bool)
    (fname tn : String) (opt : Bool) (sv : StringValidation) (value : String)
    (w : IntWidth) :
    (∀ e, startsWithDash value = false →
      kindOfTypeName tn = ScalarKind.unsigned w →
      rustParseUnsigned w value = Except.error e →
      fieldCheck env ⟨fname, tn, opt, sv⟩ (some value) =
        [⟨fname, if e = IntErrorKind.invalidDigit then ErrMsg.notANumber fname value
                 else ErrMsg.outOfRangeUnsigned fname value tn (uMax w)⟩]) ∧
    (∀ e, kindOfTypeName tn = ScalarKind.signed w →
      rustParseSigned w value = Except.error e →
      fieldCheck env ⟨fname, tn, opt, sv⟩ (some value) =
        [⟨fname, if e = IntErrorKind.invalidDigit then ErrMsg.notANumber fname value
                 else ErrMsg.outOfRangeSigned fname value tn (iMin w) (iMax w)⟩]) ∧
    (kindOfTypeName tn = ScalarKind.unsigned IntWidth.w8 →
      fieldCheck env ⟨fname, tn, opt, sv⟩ (some "300") =
        [⟨fname, ErrMsg.outOfRangeUnsigned fname "300" tn 255⟩]) := by
  refine ⟨?_, ?_, ?_⟩
  · intro e hd hk hp
    rw [fieldCheck_mk_some, hk]
    simp only [valueCheck, hd, Bool.false_eq_true, if_false, hp,
      contains_invalid_digit_iff e]
    by_cases he : e = IntErrorKind.invalidDigit <;> simp [he]
  · intro e hk hp
    rw [fieldCheck_mk_some, hk]
    simp only [valueCheck, hp, contains_invalid_digit_iff e]
    by_cases he : e = IntErrorKind.invalidDigit <;> simp [he]
  · intro hk
    rw [fieldCheck_mk_some, hk]
    rfl

/-- Witness for C4: `u8` given `"abc"` is not-a-number, `u8` given `"300"`
is out of range 0..255, `i8` given `"-129"` is out of range -128..127. -/
theorem numeric_failure_classification_witness :
    fieldCheck (fun _ _ => true) ⟨"n", "u8", true, ⟨none, none⟩⟩ (some "abc") =
      [⟨"n", ErrMsg.notANumber "n" "abc"⟩] ∧
    fieldCheck (fun _ _ => true) ⟨"n", "u8", true, ⟨none, none⟩⟩ (some "300") =
      [⟨"n", ErrMsg.outOfRangeUnsigned "n" "300" "u8" 255⟩] ∧
    fieldCheck (fun _ _ => true) ⟨"m", "i8", true, ⟨none, none⟩⟩ (some "-129") =
      [⟨"m", ErrMsg.outOfRangeSigned "m" "-129" "i8" (-128) 127⟩] := by
  refine ⟨?_, ?_, ?_⟩
  · have h := (numeric_failure_classification (fun _ _ => true) "n" "u8" true
      ⟨none, none⟩ "abc" IntWidth.w8).1 IntErrorKind.invalidDigit rfl rfl rfl
    simpa using h
  · exact (numeric_failure_classification (fun _ _ => true) "n" "u8" true
      ⟨none, none⟩ "300" IntWidth.w8).2.2 rfl
  · have h := (numeric_failure_classification (fun _ _ => true) "m" "i8" true
      ⟨none, none⟩ "-129" IntWidth.w8).2.1 IntErrorKind.negOverflow rfl rfl
    simpa using h

/-- C2 (amended): for every scalar kind other than `bool`, a present value
that the synthesized check accepts is parseable by the declared scalar type's
parse; for `bool` this fails because Rust's `bool::from_str` accepts only the
exact literals `"true"` and `"false"` while the check also accepts `"1"`,
`"0"` and case variants. -/
theorem check_pass_implies_parse_ok (env : String → String → Bool) (f : Field)
    (value : String) (hk : kindOfTypeName f.typeName ≠ ScalarKind.bool)
    (h : fieldCheck env f (some value) = []) :
    parseScalarOk env f.typeName (kindOfTypeName f.typeName) value = true := by
  rw [fieldCheck_some] at h
  revert h
  rcases hg : kindOfTypeName f.typeName with w | w | - | - | - | - | - <;> intro h
  · simp only [valueCheck] at h
    by_cases hd : startsWithDash value
    · simp [hd] at h
    · simp only [hd, Bool.false_eq_true, if_false] at h
      rcases hp : rustParseUnsigned w value with e | n
      · simp only [hp] at h
        split at h <;> simp at h
      · simp [parseScalarOk, hp]
  · simp only [valueCheck] at h
    rcases hp : rustParseSigned w value with e | n
    · simp only [hp] at h
      split at h <;> simp at h
    · simp [parseScalarOk, hp]
  · simp only [valueCheck] at h
    by_cases hf : rustParseFloatOk value
    · simp [parseScalarOk, hf]
    · simp [hf] at h
  · simp only [valueCheck] at h
    by_cases hf : rustParseFloatOk value
    · simp [parseScalarOk, hf]
    · simp [hf] at h
  · exact absurd hg hk
  · simp [parseScalarOk]
  · simp only [valueCheck] at h
    by_cases he : env f.typeName value
    · simp [parseScalarOk, he]
    · simp [he] at h

/-- Witness for C2 (amended): a `u8` field whose value `"42"` passes the
check, and indeed `"42"` parses as `u8`. -/
theorem check_pass_implies_parse_ok_witness :
    parseScalarOk (fun _ _ => true) "u8" (kindOfTypeName "u8") "42" = true :=
  check_pass_implies_parse_ok (fun _ _ => true) ⟨"n", "u8", true, ⟨none, none⟩⟩
    "42" (by decide) rfl

/-- Counterexample to C2 as stated: a `bool` field's value `"1"` produces
zero validation errors, yet parsing `"1"` with the declared scalar type
(`bool::from_str`) fails. -/
theorem bool_check_passes_but_parse_fails :
    fieldCheck (fun _ _ => true) ⟨"x", "bool", true, ⟨none, none⟩⟩ (some "1") = [] ∧
    parseScalarOk (fun _ _ => true) "bool" (kindOfTypeName "bool") "1" = false :=
  ⟨rfl, rfl⟩

end RawStruct
